import Mathlib

/-!
Verification of the yorkie client-side document core against its
specification.  The Go source under scrutiny is the `Document` facade
(`Update`, `ApplyChangePack`, `GarbageCollect`, `ensureClone`,
`messageFromMsgAndArgs`) and the backend `Config`.  The CRDT element
library, the `change` package and the `InternalDocument` methods are
external to the provided sources; they are either kept abstract (fields
of the `Model` record below, matching the external interfaces of spec
section 6) or modelled from the spec where the spec pins their behavior
down (marked `Modelled from the spec:`).
-/

namespace Yorkie

/-- Go errors are modelled as strings (the error message). -/
abbrev Err := String

/-- Modelled from the spec: `ErrDocumentRemoved` lives in the missing
`internal_document.go`; only its identity matters here. -/
def ErrDocumentRemoved : Err := "document is removed"

/-- Document status (`StatusType` in the source; the constants
`StatusDetached`, `StatusAttached`, `StatusRemoved` are declared in the
missing `internal_document.go`, lifecycle per spec section 3). -/
inductive StatusType where
  | Detached
  | Attached
  | Removed
deriving DecidableEq, Repr

/-- Modelled from the spec: `change.Checkpoint` is a
`(serverSeq u64, clientSeq u32)` pair.  Modelled with `Nat`; the claims
about it (componentwise max, idempotence, commutativity) do not involve
overflow. -/
structure Checkpoint where
  serverSeq : Nat
  clientSeq : Nat
deriving DecidableEq, Repr

/-- Modelled from the spec: `Forward(other)` returns
`(max(serverSeq), max(clientSeq))` (spec section 3, Checkpoint); the code
of `change.Checkpoint.Forward` is not among the provided sources, only
its call site in `ApplyChangePack`. -/
def Checkpoint.Forward (cp other : Checkpoint) : Checkpoint :=
  { serverSeq := max cp.serverSeq other.serverSeq
    clientSeq := max cp.clientSeq other.clientSeq }

/-- Modelled from the spec: `change.ChangeID` is
`(clientSeq, serverSeq, lamport, actorID)` (spec section 3). -/
structure ChangeID where
  clientSeq : Nat
  serverSeq : Nat
  lamport : Nat
  actorID : String
deriving DecidableEq, Repr

/-- Modelled from the spec: `Next()` increments clientSeq and lamport
(spec section 3, ChangeID). -/
def ChangeID.Next (id : ChangeID) : ChangeID :=
  { id with clientSeq := id.clientSeq + 1, lamport := id.lamport + 1 }

/-- `DocEventType` from the source (part_000 lines 38-49). -/
inductive DocEventType where
  | WatchedEvent
  | PresenceChangedEvent
deriving DecidableEq, Repr

/-- `DocEvent` from the source (part_000 lines 32-36).  The Go field
`Type` is renamed `etype` (`Type` is reserved in Lean); the payload
`Presences map[string]innerpresence.Presence` is an abstract type `P`. -/
structure DocEvent (P : Type) where
  etype : DocEventType
  Presences : P
deriving DecidableEq, Repr

/-- The external collaborators of the document facade (spec section 6):
the CRDT root (`crdt.Root`), the presence map (`innerpresence.Map`),
changes (`change.Change`), tickets and the snapshot codec.  Their code
is not among the provided sources, so their carrier types
(`Root`, `Pres`, `Change`, `T` for tickets, `P` for event payloads) and
operations are kept abstract.
`exec` models `change.Change.Execute(root, presences)`, which mutates
its arguments in place: it returns the possibly-failing error together
with the resulting (possibly partially mutated) root and presences.
`gcRoot` models `crdt.Root.GarbageCollect`, returning the purge count
and the purged root; per spec section 6 it is infallible (the Go facade
turns its errors into panics, i.e. treats them as impossible). -/
structure Model (Root Pres Change T P : Type) where
  deepCopyRoot : Root → Except Err Root
  deepCopyPres : Pres → Pres
  exec : Change → Root → Pres → Option Err × Root × Pres
  clientSeq : Change → Nat
  eventsOf : Change → Pres → List (DocEvent P)
  decodeSnapshot : List Nat → Except Err (Root × Pres)
  snapLamport : Root → Nat
  gcRoot : T → Root → Nat × Root

/-- The authoritative replica (`InternalDocument`, declared in the
missing `internal_document.go`; its fields are those the facade source
reads and writes: `key`, `status`, `checkpoint`, `changeID`, `root`,
`presences`, `localChanges`, matching spec section 2 component I). -/
structure InternalDocument (Root Pres Change : Type) where
  key : String
  status : StatusType
  checkpoint : Checkpoint
  changeID : ChangeID
  root : Root
  presences : Pres
  localChanges : List Change
deriving DecidableEq, Repr

/-- The `Document` facade from part_000 lines 58-72.  The event channel
(`events chan DocEvent`, capacity 1) is modelled as the list of events
published so far; a channel send appends to it.  Channel capacity and
blocking are concurrency behavior outside the shallow embedding. -/
structure Document (Root Pres Change P : Type) where
  doc : InternalDocument Root Pres Change
  cloneRoot : Option Root
  clonePresences : Option Pres
  events : List (DocEvent P)
deriving DecidableEq, Repr

/-- `change.Pack` as used by the facade source: `Snapshot` (bytes,
modelled as `List Nat`), `Checkpoint`, `Changes`, `MinSyncedTicket`,
`IsRemoved`, plus the document key (spec section 6 wire envelope). -/
structure Pack (Change T : Type) where
  DocumentKey : String
  checkpoint : Checkpoint
  Changes : List Change
  Snapshot : List Nat
  MinSyncedTicket : T
  IsRemoved : Bool
deriving DecidableEq, Repr

/-- The observable effect of one run of a user updater callback
together with its change context (part_000 lines 95-112): the callback
receives the fresh context id (`d.doc.changeID.Next()`), the message and
the clone pair, may mutate the clone (fields `root`, `pres` are the
clone after the callback, covering the `LoadOrStore` of the caller's
presence too), returns an error or not (`err`), and the context ends up
with `HasChange` (`hasChange`), `ToChange()` (`change`) and `ID()`
(`finalID`). -/
structure UpdResult (Root Pres Change : Type) where
  err : Option Err
  root : Root
  pres : Pres
  hasChange : Bool
  change : Change
  finalID : ChangeID
deriving DecidableEq, Repr

/-- The type of user updater callbacks, abstracted by their observable
effect (see `UpdResult`). -/
abbrev Updater (Root Pres Change : Type) :=
  ChangeID → String → Root → Pres → UpdResult Root Pres Change

/-- `Document.ensureClone` (part_000 lines 269-283), presented as the
clone pair it establishes: if `cloneRoot` is present it is kept,
otherwise the authoritative root is deep-copied (which may fail, in
which case the presences are not touched, exactly as in the source);
likewise `clonePresences` with the infallible presence deep copy. -/
def Document.ensureCloneP {Root Pres Change T P : Type}
    (M : Model Root Pres Change T P) (d : Document Root Pres Change P) :
    Except Err (Root × Pres) :=
  match d.cloneRoot with
  | some r =>
    .ok (r, match d.clonePresences with
            | some p => p
            | none => M.deepCopyPres d.doc.presences)
  | none =>
    match M.deepCopyRoot d.doc.root with
    | .error e => .error e
    | .ok r =>
      .ok (r, match d.clonePresences with
              | some p => p
              | none => M.deepCopyPres d.doc.presences)

/-- `Document.Update` (part_000 lines 82-122).  The message is the
already-computed `messageFromMsgAndArgs(msgAndArgs...)` string.  Returns
the Go error result together with the document after the call. -/
def Document.Update {Root Pres Change T P : Type}
    (M : Model Root Pres Change T P) (updater : Updater Root Pres Change)
    (msg : String) (d : Document Root Pres Change P) :
    Option Err × Document Root Pres Change P :=
  if d.doc.status = StatusType.Removed then
    (some ErrDocumentRemoved, d)
  else
    match Document.ensureCloneP M d with
    | .error e => (some e, d)
    | .ok (cr, cp) =>
      let r := updater d.doc.changeID.Next msg cr cp
      match r.err with
      | some e => (some e, { d with cloneRoot := none, clonePresences := none })
      | none =>
        let d1 : Document Root Pres Change P :=
          { d with cloneRoot := some r.root, clonePresences := some r.pres }
        if r.hasChange then
          match M.exec r.change d1.doc.root d1.doc.presences with
          | (some e, r', p') =>
            (some e, { d1 with doc := { d1.doc with root := r', presences := p' } })
          | (none, r', p') =>
            (none, { d1 with doc := { d1.doc with
                root := r', presences := p',
                localChanges := d1.doc.localChanges ++ [r.change],
                changeID := r.finalID } })
        else (none, d1)

/-- The change loop of `ApplyChangePack` step 01 on the clone
(part_000 lines 138-142): execute each change in order against the
clone pair; stop at the first error, keeping the clone state reached so
far (the Go code mutates the clone in place and does not roll it back). -/
def execChangesOnClone {Root Pres Change T P : Type}
    (M : Model Root Pres Change T P) :
    List Change → Root → Pres → Option Err × Root × Pres
  | [], r, p => (none, r, p)
  | c :: cs, r, p =>
    match M.exec c r p with
    | (some e, r', p') => (some e, r', p')
    | (none, r', p') => execChangesOnClone M cs r' p'

/-- Modelled from the spec: `InternalDocument.ApplyChanges` is not among
the provided sources.  Per spec section 4.1 step 2 and section 7 it
executes each change against the authoritative pair collecting
presence-change events, and on failure the replica is untouched (the
caller keeps the old document when this returns an error). -/
def InternalDocument.ApplyChanges {Root Pres Change T P : Type}
    (M : Model Root Pres Change T P) :
    List Change → Root → Pres → Except Err (Root × Pres × List (DocEvent P))
  | [], r, p => .ok (r, p, [])
  | c :: cs, r, p =>
    match M.exec c r p with
    | (some e, _, _) => .error e
    | (none, r', p') =>
      match InternalDocument.ApplyChanges M cs r' p' with
      | .error e => .error e
      | .ok (r'', p'', evs) => .ok (r'', p'', M.eventsOf c p' ++ evs)

/-- Modelled from the spec: `InternalDocument.applySnapshot` is not
among the provided sources.  Per spec section 4.5 it decodes the bytes
into a fresh root/presences pair, replaces the authoritative pair,
rebuilds `changeID.lamport` from the snapshot, sets
`checkpoint.serverSeq` to the given sequence (clientSeq unchanged) and
does not clear `localChanges`. -/
def InternalDocument.applySnapshot {Root Pres Change T P : Type}
    (M : Model Root Pres Change T P) (snapshot : List Nat) (serverSeq : Nat)
    (doc : InternalDocument Root Pres Change) :
    Except Err (InternalDocument Root Pres Change) :=
  match M.decodeSnapshot snapshot with
  | .error e => .error e
  | .ok (r, p) =>
    .ok { doc with
          root := r, presences := p,
          checkpoint := { doc.checkpoint with serverSeq := serverSeq },
          changeID := { doc.changeID with lamport := M.snapLamport r } }

/-- The local-change pruning loop of `ApplyChangePack` step 02
(part_000 lines 154-161): pop the head while its clientSeq
(`change.Change.ClientSeq`, abstracted as a function) is not greater
than the pack checkpoint's clientSeq. -/
def pruneLocalChanges {Change : Type} (clientSeq : Change → Nat) (ack : Nat) :
    List Change → List Change
  | [] => []
  | c :: cs =>
    if ack < clientSeq c then c :: cs else pruneLocalChanges clientSeq ack cs

/-- `Document.SetStatus` (part_000 lines 219-221, delegating to the
internal document's status field). -/
def Document.SetStatus {Root Pres Change P : Type} (status : StatusType)
    (d : Document Root Pres Change P) : Document Root Pres Change P :=
  { d with doc := { d.doc with status := status } }

/-- `Document.GarbageCollect` (part_000 lines 248-262): collect on the
clone root when present (its count is discarded), then on the
authoritative root (`InternalDocument.GarbageCollect` is not among the
provided sources; per spec section 4.1 it delegates to the Root), and
return the authoritative count.  The panic branches are unreachable
because `gcRoot` is infallible (spec section 6). -/
def Document.GarbageCollect {Root Pres Change T P : Type}
    (M : Model Root Pres Change T P) (ticket : T)
    (d : Document Root Pres Change P) : Nat × Document Root Pres Change P :=
  let d1 : Document Root Pres Change P :=
    match d.cloneRoot with
    | some cr => { d with cloneRoot := some (M.gcRoot ticket cr).2 }
    | none => d
  let np := M.gcRoot ticket d1.doc.root
  (np.1, { d1 with doc := { d1.doc with root := np.2 } })

/-- `Document.ApplyChangePack` (part_000 lines 124-175): step 01 applies
the snapshot or replays the changes on clone and authoritative replica
(collecting events); on success, step 02 prunes acknowledged local
changes, step 03 forwards the checkpoint, step 04 garbage-collects with
the pack's min-synced ticket and step 05 applies the removed flag. -/
def Document.ApplyChangePack {Root Pres Change T P : Type}
    (M : Model Root Pres Change T P) (pack : Pack Change T)
    (d : Document Root Pres Change P) :
    Option Err × Document Root Pres Change P :=
  let step1 : Option Err × Document Root Pres Change P :=
    if 0 < pack.Snapshot.length then
      let d0 : Document Root Pres Change P :=
        { d with cloneRoot := none, clonePresences := none }
      match InternalDocument.applySnapshot M pack.Snapshot
          pack.checkpoint.serverSeq d0.doc with
      | .error e => (some e, d0)
      | .ok doc' => (none, { d0 with doc := doc' })
    else
      match Document.ensureCloneP M d with
      | .error e => (some e, d)
      | .ok (cr, cp) =>
        match execChangesOnClone M pack.Changes cr cp with
        | (some e, cr', cp') =>
          (some e, { d with cloneRoot := some cr', clonePresences := some cp' })
        | (none, cr', cp') =>
          let d1 : Document Root Pres Change P :=
            { d with cloneRoot := some cr', clonePresences := some cp' }
          match InternalDocument.ApplyChanges M pack.Changes
              d1.doc.root d1.doc.presences with
          | .error e => (some e, d1)
          | .ok (r', p', evs) =>
            (none, { d1 with
                     doc := { d1.doc with root := r', presences := p' },
                     events := d1.events ++ evs })
  match step1 with
  | (some e, d2) => (some e, d2)
  | (none, d2) =>
    let d3 : Document Root Pres Change P :=
      { d2 with doc := { d2.doc with
          localChanges :=
            pruneLocalChanges M.clientSeq pack.checkpoint.clientSeq
              d2.doc.localChanges } }
    let d4 : Document Root Pres Change P :=
      { d3 with doc := { d3.doc with
          checkpoint := d3.doc.checkpoint.Forward pack.checkpoint } }
    let d5 := (Document.GarbageCollect M pack.MinSyncedTicket d4).2
    let d6 := if pack.IsRemoved then Document.SetStatus StatusType.Removed d5 else d5
    (none, d6)

/-- A Go `interface\x7b\x7d` value as far as `messageFromMsgAndArgs`
can distinguish it: a string, or a slice of values (the only non-string
shape the claims exercise; `msgAndArgs` itself is a slice). -/
inductive GoVal where
  | str : String → GoVal
  | slice : List GoVal → GoVal

mutual

/-- Go `fmt.Sprintf` with verb `%+v` applied to one value: a string
formats as itself; a slice as its elements space-separated between
square brackets. -/
def GoVal.plusV : GoVal → String
  | .str s => s
  | .slice vs => "[" ++ GoVal.plusVList vs ++ "]"

/-- Space-separated `%+v` forms of a list of values. -/
def GoVal.plusVList : List GoVal → String
  | [] => ""
  | [v] => GoVal.plusV v
  | v :: vs => GoVal.plusV v ++ " " ++ GoVal.plusVList vs

end

/-- `messageFromMsgAndArgs` — identical bodies in part_000 lines 332-347
and document.go lines 210-225.  `sprintf` abstracts
`fmt.Sprintf(format, args...)` for the more-than-one-argument branch
(never reached by the claims); `none` models the panic of the
`msgAndArgs[0].(string)` type assertion there. -/
def messageFromMsgAndArgs (sprintf : String → List GoVal → String) :
    List GoVal → Option String
  | [] => some ""
  | [msg] =>
    match msg with
    | .str s => some s
    | v => some (GoVal.plusV v)
  | first :: rest =>
    match first with
    | .str f => some (sprintf f rest)
    | _ => none

/-- The change message computed by `Document.Update` in part_000
line 97: the variadic arguments are spread into
`messageFromMsgAndArgs(msgAndArgs...)`. -/
def updateMessageNew (sprintf : String → List GoVal → String)
    (msgAndArgs : List GoVal) : Option String :=
  messageFromMsgAndArgs sprintf msgAndArgs

/-- The change message computed by `Document.Update` in document.go
line 65: the variadic slice is passed unspread as
`messageFromMsgAndArgs(msgAndArgs)`, so the callee sees a single
argument holding the whole slice. -/
def updateMessageOld (sprintf : String → List GoVal → String)
    (msgAndArgs : List GoVal) : Option String :=
  messageFromMsgAndArgs sprintf [GoVal.slice msgAndArgs]

/-- `backend.Config` (config.go lines 25-65).  Durations are kept as the
configured strings, exactly as in the source. -/
structure Config where
  AdminUser : String
  AdminPassword : String
  SecretKey : String
  AdminTokenDuration : String
  UseDefaultProject : Bool
  SnapshotThreshold : Int
  SnapshotInterval : Int
  AuthWebhookMaxRetries : Nat
  AuthWebhookMaxWaitInterval : String
  AuthWebhookCacheSize : Int
  AuthWebhookCacheAuthTTL : String
  AuthWebhookCacheUnauthTTL : String
deriving DecidableEq, Repr

/-- `Config.Validate` (config.go lines 67-94).  `parseDur` abstracts the
Go standard library `time.ParseDuration` (`none` = parse error);
`Validate` checks, in order, `AuthWebhookMaxWaitInterval`,
`AuthWebhookCacheAuthTTL` and `AuthWebhookCacheUnauthTTL`, and returns
the first parse failure as an error (`none` result = the Go `nil`). -/
def Config.Validate (parseDur : String → Option Int) (c : Config) :
    Option Err :=
  match parseDur c.AuthWebhookMaxWaitInterval with
  | none => some ("invalid argument " ++ c.AuthWebhookMaxWaitInterval ++
      " for auth-webhook-max-wait-interval flag")
  | some _ =>
    match parseDur c.AuthWebhookCacheAuthTTL with
    | none => some ("invalid argument " ++ c.AuthWebhookCacheAuthTTL ++
        " for auth-webhook-cache-auth-ttl flag")
    | some _ =>
      match parseDur c.AuthWebhookCacheUnauthTTL with
      | none => some ("invalid argument " ++ c.AuthWebhookCacheUnauthTTL ++
          " for auth-webhook-cache-unauth-ttl flag")
      | some _ => none

/-- `Config.ParseAdminTokenDuration` (config.go lines 96-104): parse
`AdminTokenDuration`, panicking on failure (`none` models the panic). -/
def Config.ParseAdminTokenDuration (parseDur : String → Option Int)
    (c : Config) : Option Int :=
  parseDur c.AdminTokenDuration

/-! Concrete instances used to evaluate the operations on explicit
inputs. -/

/-- A concrete model over `Nat` roots and presences with unit changes:
every operation succeeds. -/
def demoModel : Model Nat Nat Unit Unit Unit :=
  { deepCopyRoot := fun r => .ok r
    deepCopyPres := fun p => p
    exec := fun _ r p => (none, r + 1, p)
    clientSeq := fun _ => 1
    eventsOf := fun _ _ => []
    decodeSnapshot := fun _ => .ok (7, 3)
    snapLamport := fun _ => 0
    gcRoot := fun _ r => (2, r) }

/-- `demoModel` with a change execution that always fails, leaving its
arguments as they were. -/
def failExecModel : Model Nat Nat Unit Unit Unit :=
  { demoModel with exec := fun _ r p => (some "boom", r, p) }

/-- A concrete change id. -/
def demoID : ChangeID := ⟨0, 0, 0, "A"⟩

/-- A concrete attached document with a materialized clone. -/
def demoD : Document Nat Nat Unit Unit :=
  ⟨⟨"k", StatusType.Attached, ⟨0, 0⟩, demoID, 10, 20, []⟩, some 10, some 20, []⟩

/-- An updater whose callback fails with error "boom" without recording
a change. -/
def failUpd : Updater Nat Nat Unit :=
  fun _ _ r p => ⟨some "boom", r, p, false, (), demoID⟩

/-- An updater that succeeds and records one change. -/
def okUpd : Updater Nat Nat Unit :=
  fun id _ r p => ⟨none, r + 5, p, true, (), id⟩

/-- A pack carrying one change and no snapshot. -/
def demoPackOneChange : Pack Unit Unit := ⟨"k", ⟨0, 0⟩, [()], [], (), false⟩

/-- A model over `Nat` changes whose clientSeq is the change itself. -/
def seqModel : Model Nat Nat Nat Unit Unit :=
  { deepCopyRoot := fun r => .ok r
    deepCopyPres := fun p => p
    exec := fun _ r p => (none, r, p)
    clientSeq := fun c => c
    eventsOf := fun _ _ => []
    decodeSnapshot := fun _ => .ok (0, 0)
    snapLamport := fun _ => 0
    gcRoot := fun _ r => (0, r) }

/-- A document with three pending local changes of clientSeqs 1, 2, 3
(the scenario of spec section 8, end-to-end scenario 6). -/
def seqDoc : Document Nat Nat Nat Unit :=
  ⟨⟨"k", StatusType.Attached, ⟨0, 0⟩, demoID, 0, 0, [1, 2, 3]⟩, some 0, some 0, []⟩

/-- A pack with no changes, no snapshot and checkpoint clientSeq 2. -/
def seqPack : Pack Nat Unit := ⟨"k", ⟨0, 2⟩, [], [], (), false⟩

/-! The claims. -/

/-- C7: `Checkpoint.Forward` computes the componentwise maximum, and is
idempotent and commutative. -/
theorem Checkpoint.Forward_max_idem_comm (a b : Checkpoint) :
    a.Forward b = ⟨max a.serverSeq b.serverSeq, max a.clientSeq b.clientSeq⟩
    ∧ a.Forward a = a
    ∧ a.Forward b = b.Forward a := by
  refine ⟨rfl, ?_, ?_⟩
  · simp [Checkpoint.Forward]
  · simp [Checkpoint.Forward, Nat.max_comm]

/-- `Document.GarbageCollect` in closed form: the returned count is the
authoritative purge count, the clone root is collected exactly when
present, the authoritative root is always collected. -/
theorem GarbageCollect_eq {Root Pres Change T P : Type}
    (M : Model Root Pres Change T P) (t : T) (d : Document Root Pres Change P) :
    Document.GarbageCollect M t d
      = ((M.gcRoot t d.doc.root).1,
         { d with
           cloneRoot := d.cloneRoot.map fun cr => (M.gcRoot t cr).2,
           doc := { d.doc with root := (M.gcRoot t d.doc.root).2 } }) := by
  cases h : d.cloneRoot <;> simp [Document.GarbageCollect, h]

/-- C8: `Document.GarbageCollect(t)` collects the clone root exactly
when a clone is present, always collects the authoritative root, and
returns the authoritative purge count (the clone's count is
discarded). -/
theorem GarbageCollect_clone_iff_present_count_authoritative
    {Root Pres Change T P : Type}
    (M : Model Root Pres Change T P) (t : T) (d : Document Root Pres Change P) :
    (Document.GarbageCollect M t d).1 = (M.gcRoot t d.doc.root).1
    ∧ (Document.GarbageCollect M t d).2.cloneRoot
        = d.cloneRoot.map (fun cr => (M.gcRoot t cr).2)
    ∧ (Document.GarbageCollect M t d).2.doc.root = (M.gcRoot t d.doc.root).2 := by
  rw [GarbageCollect_eq]
  exact ⟨rfl, rfl, rfl⟩

/-- A concrete instance of the abstract format-string helper. -/
def sprintf0 : String → List GoVal → String := fun f _ => f

/-- C9 counterexample: with no message arguments the two `Update`
versions compute different change messages — the spread call
(part_000) yields the empty string, the unspread call (document.go)
formats the empty slice as "[]". -/
theorem updateMessage_old_new_differ_on_empty :
    updateMessageNew sprintf0 [] ≠ updateMessageOld sprintf0 [] := by
  simp [updateMessageNew, updateMessageOld, messageFromMsgAndArgs,
    GoVal.plusV, GoVal.plusVList]

/-- C9 amended: the two versions differ because document.go passes the
variadic slice unspread.  With zero arguments the new version yields ""
and the old yields "[]"; with a single string argument the new version
yields the string verbatim and the old wraps it in brackets. -/
theorem updateMessage_old_vs_new (sprintf : String → List GoVal → String) :
    updateMessageNew sprintf [] = some ""
    ∧ updateMessageOld sprintf [] = some "[]"
    ∧ ∀ s : String,
        updateMessageNew sprintf [GoVal.str s] = some s
        ∧ updateMessageOld sprintf [GoVal.str s] = some ("[" ++ s ++ "]") := by
  refine ⟨rfl, ?_, fun s => ⟨rfl, ?_⟩⟩
  · simp [updateMessageOld, messageFromMsgAndArgs, GoVal.plusV, GoVal.plusVList]
  · simp [updateMessageOld, messageFromMsgAndArgs, GoVal.plusV, GoVal.plusVList]

/-- C10: `Config.Validate` returns nil exactly when the three webhook
duration strings parse; it never reads `AdminTokenDuration`; hence any
config whose webhook durations parse but whose admin token duration does
not passes validation and still panics in `ParseAdminTokenDuration`. -/
theorem Config.Validate_webhook_only (parseDur : String → Option Int)
    (c : Config) :
    (Config.Validate parseDur c = none ↔
      ((parseDur c.AuthWebhookMaxWaitInterval).isSome = true
        ∧ (parseDur c.AuthWebhookCacheAuthTTL).isSome = true
        ∧ (parseDur c.AuthWebhookCacheUnauthTTL).isSome = true))
    ∧ (∀ s, Config.Validate parseDur { c with AdminTokenDuration := s }
          = Config.Validate parseDur c)
    ∧ (∀ good bad, (parseDur good).isSome = true → parseDur bad = none →
        ∃ c' : Config, Config.Validate parseDur c' = none
          ∧ Config.ParseAdminTokenDuration parseDur c' = none) := by
  refine ⟨?_, ?_, ?_⟩
  · cases h1 : parseDur c.AuthWebhookMaxWaitInterval <;>
      cases h2 : parseDur c.AuthWebhookCacheAuthTTL <;>
        cases h3 : parseDur c.AuthWebhookCacheUnauthTTL <;>
          simp [Config.Validate, h1, h2, h3]
  · intro s
    simp [Config.Validate]
  · intro good bad hg hb
    obtain ⟨v, hv⟩ := Option.isSome_iff_exists.mp hg
    refine ⟨⟨"", "", "", bad, false, 0, 0, 0, good, 0, good, good⟩, ?_, ?_⟩
    · simp [Config.Validate, hv]
    · simp [Config.ParseAdminTokenDuration, hb]

/-- Evaluating C10 on a concrete parser and config: "1h" parses, "7d"
(the documented default admin token duration) does not. -/
theorem Config.Validate_webhook_only_witness :
    ∃ c' : Config,
      Config.Validate (fun s => if s = "1h" then some 3600 else none) c' = none
      ∧ Config.ParseAdminTokenDuration
          (fun s => if s = "1h" then some 3600 else none) c' = none :=
  (Config.Validate_webhook_only (fun s => if s = "1h" then some 3600 else none)
      ⟨"", "", "", "", false, 0, 0, 0, "", 0, "", ""⟩).2.2
    "1h" "7d" (by decide) (by decide)

/-- C4: on a removed document, `Update` returns `ErrDocumentRemoved`
and changes nothing; the result does not depend on the updater, which is
therefore never invoked. -/
theorem Update_removed_rejected {Root Pres Change T P : Type}
    (M : Model Root Pres Change T P) (msg : String)
    (d : Document Root Pres Change P)
    (h : d.doc.status = StatusType.Removed) :
    ∀ u : Updater Root Pres Change,
      Document.Update M u msg d = (some ErrDocumentRemoved, d) := by
  intro u
  simp [Document.Update, h]

/-- Evaluating C4 on a concrete removed document. -/
theorem Update_removed_rejected_witness :
    Document.Update demoModel okUpd "m" (Document.SetStatus StatusType.Removed demoD)
      = (some ErrDocumentRemoved, Document.SetStatus StatusType.Removed demoD) :=
  Update_removed_rejected demoModel "m"
    (Document.SetStatus StatusType.Removed demoD) rfl okUpd

/-- C1: when `Update` fails, the authoritative internal document is
exactly its pre-call value (given that `Change.Execute`, whose code is
not among the provided sources, fails without mutating its arguments, as
the spec's failure guarantee states); and when the failure is the
updater's own error, both clone fields are set to nil and that error is
returned verbatim. -/
theorem Update_failure_preserves_doc {Root Pres Change T P : Type}
    (M : Model Root Pres Change T P)
    (hatomic : ∀ c r p e r' p',
      M.exec c r p = (some e, r', p') → r' = r ∧ p' = p)
    (u : Updater Root Pres Change) (msg : String)
    (d : Document Root Pres Change P) :
    (∀ e, (Document.Update M u msg d).1 = some e →
        (Document.Update M u msg d).2.doc = d.doc)
    ∧ (∀ cr cp e, d.doc.status ≠ StatusType.Removed →
        Document.ensureCloneP M d = .ok (cr, cp) →
        (u d.doc.changeID.Next msg cr cp).err = some e →
        Document.Update M u msg d = (some e, ⟨d.doc, none, none, d.events⟩)) := by
  constructor
  · intro e hfail
    by_cases hs : d.doc.status = StatusType.Removed
    · simp [Document.Update, hs]
    · cases hec : Document.ensureCloneP M d with
      | error e1 => simp [Document.Update, hs, hec]
      | ok pr =>
        obtain ⟨cr, cp⟩ := pr
        cases her : (u d.doc.changeID.Next msg cr cp).err with
        | some e1 => simp [Document.Update, hs, hec, her]
        | none =>
          cases hch : (u d.doc.changeID.Next msg cr cp).hasChange with
          | false =>
            exfalso
            simp [Document.Update, hs, hec, her, hch] at hfail
          | true =>
            rcases hex : M.exec (u d.doc.changeID.Next msg cr cp).change
                d.doc.root d.doc.presences with ⟨eo, r', p'⟩
            cases eo with
            | none =>
              exfalso
              simp [Document.Update, hs, hec, her, hch, hex] at hfail
            | some e1 =>
              obtain ⟨hr, hp⟩ := hatomic _ _ _ _ _ _ hex
              subst hr hp
              simp [Document.Update, hs, hec, her, hch, hex]
  · intro cr cp e hs hec her
    simp [Document.Update, hs, hec, her]

/-- Evaluating C1 on a concrete document whose updater fails with
"boom": the error is surfaced verbatim, the clone fields are poisoned
and the internal document is untouched. -/
theorem Update_failure_preserves_doc_witness :
    Document.Update demoModel failUpd "m" demoD
      = (some "boom", ⟨demoD.doc, none, none, demoD.events⟩) :=
  (Update_failure_preserves_doc demoModel
      (by intro c r p e r' p' h; simp [demoModel] at h)
      failUpd "m" demoD).2 10 20 "boom" (by decide) rfl rfl

/-- C6 counterexample: a successful `Update` that records a change (here
one whose presence delta status is irrelevant to the event channel)
publishes nothing: the event list is unchanged and empty. -/
theorem Update_publishes_no_event :
    (Document.Update demoModel okUpd "m" demoD).1 = none
    ∧ (Document.Update demoModel okUpd "m" demoD).2.doc.localChanges = [()]
    ∧ (Document.Update demoModel okUpd "m" demoD).2.events = [] := by
  decide

/-- C6 amended: `Update` never publishes on the event channel, whatever
the updater does; `PresenceChanged` events are only published by
`ApplyChangePack` while applying remote changes. -/
theorem Update_events_unchanged {Root Pres Change T P : Type}
    (M : Model Root Pres Change T P) (u : Updater Root Pres Change)
    (msg : String) (d : Document Root Pres Change P) :
    (Document.Update M u msg d).2.events = d.events := by
  by_cases hs : d.doc.status = StatusType.Removed
  · simp [Document.Update, hs]
  · cases hec : Document.ensureCloneP M d with
    | error e1 => simp [Document.Update, hs, hec]
    | ok pr =>
      obtain ⟨cr, cp⟩ := pr
      cases her : (u d.doc.changeID.Next msg cr cp).err with
      | some e1 => simp [Document.Update, hs, hec, her]
      | none =>
        cases hch : (u d.doc.changeID.Next msg cr cp).hasChange with
        | false => simp [Document.Update, hs, hec, her, hch]
        | true =>
          rcases hex : M.exec (u d.doc.changeID.Next msg cr cp).change
              d.doc.root d.doc.presences with ⟨eo, r', p'⟩
          cases eo <;> simp [Document.Update, hs, hec, her, hch, hex]

/-- C2 counterexample: when executing a change of the pack fails, the
clone fields are NOT set to nil — the contaminated clone is kept. -/
theorem ApplyChangePack_exec_failure_keeps_clone :
    (Document.ApplyChangePack failExecModel demoPackOneChange demoD).1 = some "boom"
    ∧ (Document.ApplyChangePack failExecModel demoPackOneChange demoD).2.cloneRoot
        ≠ none
    ∧ (Document.ApplyChangePack failExecModel demoPackOneChange demoD).2.clonePresences
        ≠ none := by
  decide

/-- C2 amended: for a pack without snapshot, once the clone has been
established (`ensureClone` succeeded — so any failure of the call is a
change-execution failure of step 2, on the clone or on the
authoritative replica), if `ApplyChangePack` fails then the error is
returned, the authoritative internal document and the event list are
left unmodified (no pruning, no checkpoint forwarding, no GC, no status
change), and the clone fields are non-nil: the possibly contaminated
clone is kept, not reset. -/
theorem ApplyChangePack_failure_preserves_doc {Root Pres Change T P : Type}
    (M : Model Root Pres Change T P) (pack : Pack Change T)
    (d : Document Root Pres Change P) (cr : Root) (cp : Pres)
    (hsnap : pack.Snapshot = [])
    (hec : Document.ensureCloneP M d = .ok (cr, cp))
    (e : Err)
    (hfail : (Document.ApplyChangePack M pack d).1 = some e) :
    (Document.ApplyChangePack M pack d).2.doc = d.doc
    ∧ (Document.ApplyChangePack M pack d).2.events = d.events
    ∧ (Document.ApplyChangePack M pack d).2.cloneRoot ≠ none
    ∧ (Document.ApplyChangePack M pack d).2.clonePresences ≠ none := by
  have hlen : ¬ (0 < pack.Snapshot.length) := by simp [hsnap]
  rcases hloop : execChangesOnClone M pack.Changes cr cp with ⟨eo, cr', cp'⟩
  cases eo with
  | some e1 =>
    refine ⟨?_, ?_, ?_, ?_⟩ <;>
      simp [Document.ApplyChangePack, hlen, hec, hloop]
  | none =>
    cases hac : InternalDocument.ApplyChanges M pack.Changes
        d.doc.root d.doc.presences with
    | error e2 =>
      refine ⟨?_, ?_, ?_, ?_⟩ <;>
        simp [Document.ApplyChangePack, hlen, hec, hloop, hac]
    | ok trip =>
      exfalso
      obtain ⟨r', p', evs⟩ := trip
      simp [Document.ApplyChangePack, hlen, hec, hloop, hac] at hfail

/-- A document like `demoD` but with no materialized clone: the first
remote apply must build the clone inside the call. -/
def demoDNoClone : Document Nat Nat Unit Unit :=
  ⟨⟨"k", StatusType.Attached, ⟨0, 0⟩, demoID, 10, 20, []⟩, none, none, []⟩

/-- Evaluating C2 on a concrete document whose clone is materialized by
`ensureClone` inside the call and whose change execution fails: the
error is returned, the internal document and events are untouched, and
the clone fields end up non-nil. -/
theorem ApplyChangePack_failure_preserves_doc_witness :
    (Document.ApplyChangePack failExecModel demoPackOneChange demoDNoClone).2.doc
      = demoDNoClone.doc
    ∧ (Document.ApplyChangePack failExecModel demoPackOneChange
        demoDNoClone).2.events = demoDNoClone.events
    ∧ (Document.ApplyChangePack failExecModel demoPackOneChange
        demoDNoClone).2.cloneRoot ≠ none
    ∧ (Document.ApplyChangePack failExecModel demoPackOneChange
        demoDNoClone).2.clonePresences ≠ none :=
  ApplyChangePack_failure_preserves_doc failExecModel demoPackOneChange
    demoDNoClone 10 20 rfl rfl "boom" (by decide)

/-- On a list sorted by clientSeq, the acknowledgement head-drop loop
removes exactly the changes with clientSeq not greater than the
acknowledged clientSeq. -/
theorem pruneLocalChanges_eq_filter {Change : Type} (clientSeq : Change → Nat)
    (ack : Nat) (l : List Change)
    (hsort : l.Pairwise (fun a b => clientSeq a ≤ clientSeq b)) :
    pruneLocalChanges clientSeq ack l
      = l.filter (fun c => decide (ack < clientSeq c)) := by
  induction l with
  | nil => rfl
  | cons c cs ih =>
    rcases List.pairwise_cons.mp hsort with ⟨hhead, htail⟩
    by_cases h : ack < clientSeq c
    · have hall : ∀ a ∈ c :: cs, decide (ack < clientSeq a) = true := by
        intro a ha
        rcases List.mem_cons.mp ha with rfl | ha
        · exact decide_eq_true h
        · exact decide_eq_true (lt_of_lt_of_le h (hhead a ha))
      rw [List.filter_eq_self.mpr hall]
      simp [pruneLocalChanges, h]
    · have hstep : pruneLocalChanges clientSeq ack (c :: cs)
          = pruneLocalChanges clientSeq ack cs := by
        simp [pruneLocalChanges, h]
      rw [hstep, ih htail, List.filter_cons]
      simp [h]

/-- C3: after a successful `ApplyChangePack`, given the maintained
invariant that pending local changes are ordered by clientSeq, the
remaining local changes are exactly the pending ones whose clientSeq is
strictly greater than the pack checkpoint's clientSeq, in their original
order. -/
theorem ApplyChangePack_ok_prunes_acknowledged {Root Pres Change T P : Type}
    (M : Model Root Pres Change T P) (pack : Pack Change T)
    (d : Document Root Pres Change P)
    (hsort : d.doc.localChanges.Pairwise
      (fun a b => M.clientSeq a ≤ M.clientSeq b))
    (hok : (Document.ApplyChangePack M pack d).1 = none) :
    (Document.ApplyChangePack M pack d).2.doc.localChanges
      = d.doc.localChanges.filter
          (fun c => decide (pack.checkpoint.clientSeq < M.clientSeq c)) := by
  rw [← pruneLocalChanges_eq_filter M.clientSeq pack.checkpoint.clientSeq
    d.doc.localChanges hsort]
  by_cases hsn : 0 < pack.Snapshot.length
  · cases hdec : M.decodeSnapshot pack.Snapshot with
    | error e =>
      exfalso
      simp [Document.ApplyChangePack, hsn, InternalDocument.applySnapshot,
        hdec] at hok
    | ok rp =>
      obtain ⟨r, p⟩ := rp
      cases hir : pack.IsRemoved <;>
        simp [Document.ApplyChangePack, hsn, InternalDocument.applySnapshot,
          hdec, GarbageCollect_eq, Document.SetStatus, hir]
  · cases hec : Document.ensureCloneP M d with
    | error e1 =>
      exfalso
      simp [Document.ApplyChangePack, hsn, hec] at hok
    | ok pr =>
      obtain ⟨cr, cp⟩ := pr
      rcases hloop : execChangesOnClone M pack.Changes cr cp with ⟨eo, cr', cp'⟩
      cases eo with
      | some e1 =>
        exfalso
        simp [Document.ApplyChangePack, hsn, hec, hloop] at hok
      | none =>
        cases hac : InternalDocument.ApplyChanges M pack.Changes
            d.doc.root d.doc.presences with
        | error e2 =>
          exfalso
          simp [Document.ApplyChangePack, hsn, hec, hloop, hac] at hok
        | ok trip =>
          obtain ⟨r', p', evs⟩ := trip
          cases hir : pack.IsRemoved <;>
            simp [Document.ApplyChangePack, hsn, hec, hloop, hac,
              GarbageCollect_eq, Document.SetStatus, hir]

/-- Evaluating C3 on the spec's scenario: pending clientSeqs 1, 2, 3 and
pack checkpoint clientSeq 2 leave exactly the change with clientSeq 3. -/
theorem ApplyChangePack_ok_prunes_acknowledged_witness :
    (Document.ApplyChangePack seqModel seqPack seqDoc).2.doc.localChanges
      = [3] := by
  have h := ApplyChangePack_ok_prunes_acknowledged seqModel seqPack seqDoc
    (by decide) (by decide)
  rw [h]
  decide

/-- C5: for a pack with a non-empty snapshot (that decodes), the clone
is discarded, the authoritative pair is replaced by the decoded
snapshot (the root then garbage-collected with the pack's min-synced
ticket, step 04), `checkpoint.serverSeq` becomes the pack's serverSeq,
local changes survive subject only to the checkpoint pruning rule, and
none of the pack's changes is executed (the result does not depend on
the change list or on the execution function). -/
theorem ApplyChangePack_snapshot_replaces {Root Pres Change T P : Type}
    (M : Model Root Pres Change T P) (pack : Pack Change T)
    (d : Document Root Pres Change P) (r : Root) (p : Pres)
    (hsnap : pack.Snapshot ≠ [])
    (hdec : M.decodeSnapshot pack.Snapshot = .ok (r, p)) :
    (Document.ApplyChangePack M pack d).1 = none
    ∧ (Document.ApplyChangePack M pack d).2.cloneRoot = none
    ∧ (Document.ApplyChangePack M pack d).2.clonePresences = none
    ∧ (Document.ApplyChangePack M pack d).2.doc.presences = p
    ∧ (Document.ApplyChangePack M pack d).2.doc.root
        = (M.gcRoot pack.MinSyncedTicket r).2
    ∧ (Document.ApplyChangePack M pack d).2.doc.checkpoint.serverSeq
        = pack.checkpoint.serverSeq
    ∧ (Document.ApplyChangePack M pack d).2.doc.localChanges
        = pruneLocalChanges M.clientSeq pack.checkpoint.clientSeq
            d.doc.localChanges
    ∧ ∀ (exec' : Change → Root → Pres → Option Err × Root × Pres)
        (cs : List Change),
        Document.ApplyChangePack { M with exec := exec' }
            { pack with Changes := cs } d
          = Document.ApplyChangePack M pack d := by
  have hsn : 0 < pack.Snapshot.length := List.length_pos.mpr hsnap
  refine ⟨?_, ?_, ?_, ?_, ?_, ?_, ?_, fun exec' cs => ?_⟩ <;>
    cases hir : pack.IsRemoved <;>
      simp [Document.ApplyChangePack, hsn, InternalDocument.applySnapshot,
        hdec, GarbageCollect_eq, Document.SetStatus, Checkpoint.Forward, hir]

/-- Evaluating C5 on a concrete snapshot pack. -/
theorem ApplyChangePack_snapshot_replaces_witness :
    (Document.ApplyChangePack demoModel
        (⟨"k", ⟨5, 2⟩, [], [1], (), false⟩ : Pack Unit Unit) demoD).1 = none
    ∧ (Document.ApplyChangePack demoModel
        (⟨"k", ⟨5, 2⟩, [], [1], (), false⟩ : Pack Unit Unit) demoD).2.cloneRoot
        = none
    ∧ (Document.ApplyChangePack demoModel
        (⟨"k", ⟨5, 2⟩, [], [1], (), false⟩ : Pack Unit Unit)
          demoD).2.clonePresences = none
    ∧ (Document.ApplyChangePack demoModel
        (⟨"k", ⟨5, 2⟩, [], [1], (), false⟩ : Pack Unit Unit)
          demoD).2.doc.presences = 3
    ∧ (Document.ApplyChangePack demoModel
        (⟨"k", ⟨5, 2⟩, [], [1], (), false⟩ : Pack Unit Unit) demoD).2.doc.root
        = (demoModel.gcRoot () 7).2
    ∧ (Document.ApplyChangePack demoModel
        (⟨"k", ⟨5, 2⟩, [], [1], (), false⟩ : Pack Unit Unit)
          demoD).2.doc.checkpoint.serverSeq = 5
    ∧ (Document.ApplyChangePack demoModel
        (⟨"k", ⟨5, 2⟩, [], [1], (), false⟩ : Pack Unit Unit)
          demoD).2.doc.localChanges
        = pruneLocalChanges demoModel.clientSeq 2 demoD.doc.localChanges := by
  have h := ApplyChangePack_snapshot_replaces demoModel
    (⟨"k", ⟨5, 2⟩, [], [1], (), false⟩ : Pack Unit Unit) demoD 7 3
    (by decide) rfl
  exact ⟨h.1, h.2.1, h.2.2.1, h.2.2.2.1, h.2.2.2.2.1, h.2.2.2.2.2.1,
    h.2.2.2.2.2.2.1⟩

end Yorkie
